import Mathlib

/-!
# Toll calculation service: the HTTP and gRPC transport of the aggregator

A verification development over `aggregator/main.go` (the HTTP handlers `handleAggregate`,
`handleGetInvoice`, `handleGetAllInvoice` and the helper `writeJSON`) and
`types/ptypes_grpc.pb.go` (`UnimplementedAggregatorServer.Aggregator`).

The handlers are embedded as pure functions over an explicit state: the response writer, the
state of the domain service, and a log of the calls made to the service.
-/

namespace TollCalc

/-! ## Go strings -/

/-- A Go string is a byte sequence.  It is modelled as the list of its bytes, a byte being a
character below 256; for ASCII text this is the list of its characters. -/
abbrev GoString := List Char

/-! ## strconv.Atoi (Go standard library, 64-bit int) -/

/-- The digit loop of `strconv.Atoi` / `strconv.ParseUint` in base 10: `n = n*10 + (ch - '0')`,
failing on the first byte that is not a decimal digit.  The accumulator is unbounded here; the
range check is made by `Atoi`. -/
def parseDigits : Nat → GoString → Option Nat
  | n, [] => some n
  | n, ch :: rest =>
    if ch.isDigit then parseDigits (n * 10 + (ch.toNat - 48)) rest else none

/-- Go `strconv.Atoi(s)`: an optional sign `+` or `-`, then at least one decimal digit and
nothing else, the value lying in the range of a 64-bit `int`.  The result is `none` when Atoi
returns a non-nil error (syntax or range; callers here only test `err != nil`). -/
def Atoi (s : GoString) : Option Int :=
  match s with
  | [] => none
  | c :: rest =>
    let digits := if c = '-' ∨ c = '+' then rest else s
    if digits = [] then none
    else
      match parseDigits 0 digits with
      | none => none
      | some n =>
        if c = '-' then
          if n ≤ 2 ^ 63 then some (-(n : Int)) else none
        else
          if n ≤ 2 ^ 63 - 1 then some (n : Int) else none

/-! ## net/url: URL.Query (Go standard library) -/

/-- Go `url.Values`, a `map[string][]string`: `none` for an absent key, `some vs` for a key
mapped to the slice `vs`. -/
abbrev Values := GoString → Option (List GoString)

/-- The empty map `make(Values)`. -/
def Values.empty : Values := fun _ => none

/-- Go `m[key] = append(m[key], value)`; indexing an absent key yields the nil slice. -/
def Values.add (m : Values) (key value : GoString) : Values :=
  fun k => if k = key then some ((m key).getD [] ++ [value]) else m k

/-- Go `ishex` of net/url. -/
def ishex (c : Char) : Bool :=
  ('0' ≤ c ∧ c ≤ '9') ∨ ('a' ≤ c ∧ c ≤ 'f') ∨ ('A' ≤ c ∧ c ≤ 'F')

/-- Go `unhex` of net/url. -/
def unhex (c : Char) : Nat :=
  if '0' ≤ c ∧ c ≤ '9' then c.toNat - 48
  else if 'a' ≤ c ∧ c ≤ 'f' then c.toNat - 97 + 10
  else if 'A' ≤ c ∧ c ≤ 'F' then c.toNat - 65 + 10
  else 0

/-- Go `url.QueryUnescape`: `%XY` with two hex digits becomes the byte `0xXY`, `+` becomes a
space, any other byte is kept; a `%` not followed by two hex digits is an error (`none`). -/
def QueryUnescape : GoString → Option GoString
  | [] => some []
  | c :: rest =>
    if c = '%' then
      match rest with
      | a :: b :: rest2 =>
        if ishex a ∧ ishex b then
          (QueryUnescape rest2).map (fun t => Char.ofNat (unhex a * 16 + unhex b) :: t)
        else none
      | _ => none
    else if c = '+' then (QueryUnescape rest).map (fun t => ' ' :: t)
    else (QueryUnescape rest).map (fun t => c :: t)

/-- Go `strings.Cut(s, sep)` for a one-byte separator: the text before the first `sep` and the
text after it; when `sep` does not occur, `s` and the empty string. -/
def cut (sep : Char) : GoString → GoString × GoString
  | [] => ([], [])
  | c :: rest => if c = sep then ([], rest) else ((cut sep rest).1.cons c, (cut sep rest).2)

/-- The pieces that the loop of `url.parseQuery` visits: it repeatedly cuts the remaining query
at the next `&` until nothing remains.  (A trailing empty piece is listed here and skipped by
the loop body, as every empty piece is.) -/
def pieces : GoString → List GoString
  | [] => [[]]
  | c :: rest =>
    if c = '&' then [] :: pieces rest
    else
      match pieces rest with
      | [] => [[c]]
      | p :: ps => (c :: p) :: ps

/-- One iteration of the loop of `url.parseQuery` on the piece `key`: a piece with a `;` or an
empty piece is skipped; the piece is cut at the first `=`; both halves are unescaped, a failure
skipping the piece; otherwise the value is appended under the key. -/
def parseQueryStep (m : Values) (piece : GoString) : Values :=
  if ';' ∈ piece then m
  else if piece = [] then m
  else
    match QueryUnescape (cut '=' piece).1 with
    | none => m
    | some key =>
      match QueryUnescape (cut '=' piece).2 with
      | none => m
      | some value => m.add key value

/-- Go `u.Query()`, which is `ParseQuery(u.RawQuery)` with the error dropped (net/url since
Go 1.17, where a piece containing `;` is rejected). -/
def Query (rawQuery : GoString) : Values :=
  (pieces rawQuery).foldl parseQueryStep Values.empty

/-! ## net/http: request and response writer -/

/-- The parts of `*http.Request` the handlers read. -/
structure Request where
  /-- The request method, `r.Method`. -/
  Method : GoString
  /-- The raw query of the request URL, `r.URL.RawQuery`. -/
  RawQuery : GoString
  /-- The bytes of the request body, `r.Body`. -/
  Body : GoString
  deriving DecidableEq

/-- The value `v` handed to `writeJSON`, by the three shapes used in `main.go`. -/
inductive JSONArg (ι : Type) where
  /-- The Go value `map[string]string` with the one key `error`. -/
  | errorMap (message : GoString)
  /-- The invoice returned by `CalculateInvoice`. -/
  | invoice (inv : ι)
  /-- The Go value `nil`, encoded as JSON `null`. -/
  | null
  deriving DecidableEq

/-- Go `json.Marshal` on the type of the invoice, as far as the handlers depend on it: whether
the value can be encoded.  (The encoder rejects, for instance, a floating-point field that is
an infinity or not a number.) -/
class JSONMarshal (ι : Type) where
  /-- Whether `json.Marshal` returns no error on the value. -/
  marshals : ι → Bool

/-- Whether `json.Marshal` returns no error on the value handed to `writeJSON`: a string map
and nil are always encoded; an invoice is encoded when its type allows it. -/
def JSONArg.marshals {ι : Type} [JSONMarshal ι] : JSONArg ι → Bool
  | JSONArg.errorMap _ => true
  | JSONArg.invoice inv => JSONMarshal.marshals inv
  | JSONArg.null => true

/-- The state of an `http.ResponseWriter`.  The body is kept as the sequence of values whose
JSON encoding was written, the encoder itself being `encoding/json`. -/
structure ResponseWriter (ι : Type) where
  /-- The header map returned by `w.Header()`, as the list of added pairs. -/
  header : List (GoString × GoString)
  /-- Whether the status line and headers were already sent. -/
  wroteHeader : Bool
  /-- The status code sent (meaningful once `wroteHeader`). -/
  status : Nat
  /-- The headers sent: the header map as it was at the effective `WriteHeader`. -/
  sentHeader : List (GoString × GoString)
  /-- Every status code passed to `WriteHeader`, in order; only the first takes effect. -/
  headerCalls : List Nat
  /-- The values whose JSON encodings were written to the body, in order. -/
  body : List (JSONArg ι)
  deriving DecidableEq

variable {σ δ ι : Type}

/-- The response writer a handler receives: nothing sent, no header set. -/
def ResponseWriter.fresh : ResponseWriter ι :=
  { header := [], wroteHeader := false, status := 0, sentHeader := [], headerCalls := [],
    body := [] }

/-- Go `w.WriteHeader(status)`: the first call fixes the status and the headers sent; a later
call is superfluous and changes neither.  The handlers pass the codes 200, 400 and 500; the
panic of net/http on a code outside 100..999 and the informational codes 1xx are not part of
this model. -/
def ResponseWriter.WriteHeader (w : ResponseWriter ι) (status : Nat) : ResponseWriter ι :=
  if w.wroteHeader then { w with headerCalls := w.headerCalls ++ [status] }
  else
    { w with wroteHeader := true, status := status, sentHeader := w.header,
             headerCalls := w.headerCalls ++ [status] }

/-- Go `w.Header().Add(key, value)`. -/
def ResponseWriter.HeaderAdd (w : ResponseWriter ι) (key value : GoString) : ResponseWriter ι :=
  { w with header := w.header ++ [(key, value)] }

/-- Go `json.NewEncoder(w).Encode(v)`.  The value is first marshalled; when that fails, the
error is returned and nothing is written.  Otherwise there is one `Write` of the encoding of
`v`; a `Write` before any `WriteHeader` first triggers the implicit
`WriteHeader(http.StatusOK)`.  The error result is not kept: `writeJSON` returns it and every
caller in `main.go` drops it. -/
def ResponseWriter.Encode [JSONMarshal ι] (w : ResponseWriter ι) (v : JSONArg ι) :
    ResponseWriter ι :=
  if v.marshals then
    let w1 :=
      if w.wroteHeader then w
      else { w with wroteHeader := true, status := 200, sentHeader := w.header }
    { w1 with body := w1.body ++ [v] }
  else w

/-- What the server does when the handler returns: a response that was never started is sent
with status 200 and the headers set so far. -/
def ResponseWriter.finishRequest (w : ResponseWriter ι) : ResponseWriter ι :=
  if w.wroteHeader then w
  else { w with wroteHeader := true, status := 200, sentHeader := w.header }

/-- Go `writeJSON(w, status, v)` of `main.go`:
`w.WriteHeader(status)`, then `w.Header().Add("Content-Type", "application/json")`, then
`json.NewEncoder(w).Encode(v)`. -/
def writeJSON [JSONMarshal ι] (w : ResponseWriter ι) (status : Nat) (v : JSONArg ι) :
    ResponseWriter ι :=
  ((w.WriteHeader status).HeaderAdd "Content-Type".toList "application/json".toList).Encode v

/-! ## The domain service -/

/-- The kinds of error of the service contract. -/
inductive ErrorKind where
  | validation
  | notFound
  | store
  deriving DecidableEq

/-- Modelled from the spec: the Go `error` values returned by the service, whose declarations
are outside the given sources; the kind follows the spec's error taxonomy (ValidationError,
NotFoundError, StoreError) and `message` is the result of `err.Error()`. -/
structure ServiceError where
  kind : ErrorKind
  message : GoString
  deriving DecidableEq

/-- The interface `Aggregator` that the handlers receive as `svc`, in state-passing style: `σ`
is the state of the service, `δ` the type `types.Distance`, `ι` the type of the first result of
`CalculateInvoice`.  A Go `error` result is `none` for `nil`. -/
structure Aggregator (σ δ ι : Type) where
  /-- Go `AggregateDistance(distance) error`. -/
  AggregateDistance : δ → σ → Option ServiceError × σ
  /-- Go `CalculateInvoice(obuID) (invoice, error)`. -/
  CalculateInvoice : Int → σ → (ι × Option ServiceError) × σ

/-- A call made to the service. -/
inductive Call (δ : Type) where
  | aggregateDistance (distance : δ)
  | calculateInvoice (obuID : Int)
  deriving DecidableEq

/-- The state a handler runs on: the response writer `w`, the state of the service, and the log
of the calls made to the service so far. -/
structure Exchange (σ δ ι : Type) where
  w : ResponseWriter ι
  svc : σ
  calls : List (Call δ)
  deriving DecidableEq

/-- The state in which the server invokes a handler: a fresh response writer, the service in
state `s`, no call made. -/
def Exchange.start (s : σ) : Exchange σ δ ι :=
  { w := ResponseWriter.fresh, svc := s, calls := [] }

/-- The handler calls `writeJSON(w, status, v)`. -/
def Exchange.writeJSON [JSONMarshal ι] (x : Exchange σ δ ι) (status : Nat) (v : JSONArg ι) :
    Exchange σ δ ι :=
  { x with w := TollCalc.writeJSON x.w status v }

/-! ## The handlers of main.go -/

/-- Go `handleGetInvoice(svc)` applied to a request.  The result is `none` when the handler
panics (indexing `values[0]` of an empty slice). -/
def handleGetInvoice [JSONMarshal ι] (svc : Aggregator σ δ ι) (r : Request)
    (x : Exchange σ δ ι) :
    Option (Exchange σ δ ι) :=
  let x1 :=
    if r.Method ≠ "GET".toList then
      x.writeJSON 400 (.errorMap "method not supported".toList)
    else x
  match Query r.RawQuery "obu".toList with
  | none => some (x1.writeJSON 400 (.errorMap "missing OBU ID".toList))
  | some values =>
    match values with
    | [] => none
    | v0 :: _ =>
      match Atoi v0 with
      | none => some (x1.writeJSON 400 (.errorMap "invalid OBU ID".toList))
      | some obuID =>
        let res := svc.CalculateInvoice obuID x1.svc
        let x2 : Exchange σ δ ι :=
          { x1 with svc := res.2, calls := x1.calls ++ [.calculateInvoice obuID] }
        match res.1.2 with
        | some err => some (x2.writeJSON 500 (.errorMap err.message))
        | none => some (x2.writeJSON 200 (.invoice res.1.1))

/-- Go `handleGetAllInvoice(svc)` applied to a request. -/
def handleGetAllInvoice [JSONMarshal ι] (_svc : Aggregator σ δ ι) (_r : Request)
    (x : Exchange σ δ ι) :
    Exchange σ δ ι :=
  x.writeJSON 200 .null

/-- Go `handleAggregate(svc)` applied to a request.  `decode` stands for
`json.NewDecoder(r.Body).Decode(&distance)` on a zero `types.Distance`: the decoded report, or
the message of the decode error. -/
def handleAggregate [JSONMarshal ι] (svc : Aggregator σ δ ι)
    (decode : GoString → Except GoString δ)
    (r : Request) (x : Exchange σ δ ι) : Exchange σ δ ι :=
  let x1 :=
    if r.Method ≠ "POST".toList then
      x.writeJSON 400 (.errorMap "method not supported".toList)
    else x
  match decode r.Body with
  | .error msg => x1.writeJSON 400 (.errorMap msg)
  | .ok distance =>
    let res := svc.AggregateDistance distance x1.svc
    let x2 : Exchange σ δ ι :=
      { x1 with svc := res.2, calls := x1.calls ++ [.aggregateDistance distance] }
    match res.1 with
    | some err => x2.writeJSON 500 (.errorMap err.message)
    | none => x2

/-! ## The gRPC stub of types/ptypes_grpc.pb.go -/

/-- Go `codes.OK` of google.golang.org/grpc/codes. -/
def codes.OK : Nat := 0

/-- Go `codes.Unimplemented` of google.golang.org/grpc/codes. -/
def codes.Unimplemented : Nat := 12

/-- A gRPC status: a code and a message. -/
structure Status where
  code : Nat
  message : GoString
  deriving DecidableEq

/-- Go `(*Status).Err()`: the nil error for code OK, otherwise an error carrying the status. -/
def Status.Err (st : Status) : Option Status :=
  if st.code = codes.OK then none else some st

/-- Go `status.Errorf(c, format)` with no operands, which is `New(c, Sprintf(format)).Err()`.
The one format used in this file has no `%` verb, so `Sprintf` returns it unchanged. -/
def status.Errorf (c : Nat) (format : GoString) : Option Status :=
  Status.Err { code := c, message := format }

/-- The message type `None` of the protocol, an empty acknowledgement. -/
structure None where
  deriving DecidableEq

/-- Go `UnimplementedAggregatorServer.Aggregator(ctx, req)`: the response pointer (`none` for
nil) and the error. -/
def UnimplementedAggregatorServer.Aggregator {κ ρ : Type} (_ctx : κ) (_req : ρ) :
    Option None × Option Status :=
  (none, status.Errorf codes.Unimplemented "method Aggregator not implemented".toList)

/-! ## A concrete service, for evaluating the handlers -/

/-- Modelled from the spec: the distance report `types.Distance` (section 3, DistanceReport),
whose declaration is outside the given sources. -/
structure DistanceReport where
  obuID : Int
  distanceMeters : Int
  timestamp : Int
  deriving DecidableEq

/-- Modelled from the spec: the invoice `types.Invoice` (section 3, Invoice), whose declaration
is outside the given sources; the time of generation is left out. -/
structure Invoice where
  obuID : Int
  totalDistance : Int
  amountDue : Int
  deriving DecidableEq

/-- The invoice of integers is always encoded by `json.Marshal`, a nil pointer as null. -/
instance instJSONMarshalOptionInvoice : JSONMarshal (Option Invoice) where
  marshals := fun _ => true

/-- Modelled from the spec: an amount of the invoice held as a Go `float64`, as far as the JSON
encoder tells values apart: a finite value, which is encoded, or a value that is not finite
(an infinity or not a number), which `json.Marshal` rejects.  The spec leaves the numeric type
of the amounts open. -/
inductive Amount where
  | finite (n : Int)
  | notFinite
  deriving DecidableEq

/-- Modelled from the spec: the invoice `types.Invoice` (section 3, Invoice) with amounts held
as `float64`; the time of generation is left out. -/
structure FloatInvoice where
  obuID : Int
  totalDistance : Amount
  amountDue : Amount
  deriving DecidableEq

/-- Go `json.Marshal` on an invoice with `float64` amounts fails exactly when an amount is not
finite. -/
instance instJSONMarshalFloatInvoice : JSONMarshal FloatInvoice where
  marshals := fun inv =>
    match inv.totalDistance, inv.amountDue with
    | Amount.finite _, Amount.finite _ => true
    | _, _ => false

/-- Modelled from the spec: a service, outside the given sources, whose running total for every
unit has overflowed to an infinity; `CalculateInvoice` returns the invoice of that total with
no error. -/
def overflowedAggregator : Aggregator Unit DistanceReport FloatInvoice where
  AggregateDistance := fun _ s => (none, s)
  CalculateInvoice := fun obuID s =>
    (({ obuID := obuID, totalDistance := Amount.notFinite, amountDue := Amount.notFinite },
      none), s)

/-- Modelled from the spec: `Store.Accumulate` (section 4.1) on a store that lists, for each
unit seen, its running total. -/
def storeAccumulate (obuID d : Int) : List (Int × Int) → List (Int × Int)
  | [] => [(obuID, d)]
  | (k, t) :: rest =>
    if k = obuID then (k, t + d) :: rest else (k, t) :: storeAccumulate obuID d rest

/-- Modelled from the spec: the aggregator service of section 4.3, which is outside the given
sources.  `AggregateDistance` rejects a negative distance with a validation error and leaves
the store unchanged, otherwise accumulates; `CalculateInvoice` fails with a not-found error for
a unit never seen and otherwise returns the invoice at the rate `ratePerUnit`. -/
def invoiceAggregator (ratePerUnit : Int) :
    Aggregator (List (Int × Int)) DistanceReport (Option Invoice) where
  AggregateDistance := fun d s =>
    if d.distanceMeters < 0 then
      (some { kind := .validation, message := "negative distance".toList }, s)
    else (none, storeAccumulate d.obuID d.distanceMeters s)
  CalculateInvoice := fun obuID s =>
    match s.lookup obuID with
    | none => ((none, some { kind := .notFound, message := "obu not found".toList }), s)
    | some t =>
      ((some { obuID := obuID, totalDistance := t, amountDue := t * ratePerUnit }, none), s)

/-! ## Properties stated about a response -/

/-- Exactly one response was written, with status `status` and body the JSON encoding of `v`:
one call of `WriteHeader`, which took effect, and one encoded value. -/
def ResponseWriter.isSingleResponse (w : ResponseWriter ι) (status : Nat) (v : JSONArg ι) :
    Prop :=
  w.wroteHeader = true ∧ w.status = status ∧ w.headerCalls = [status] ∧ w.body = [v]

/-- Every slice stored in the map has at least one element. -/
def Values.NonemptySlices (m : Values) : Prop :=
  ∀ k vs, m k = some vs → vs ≠ []

/-! ## Lemmas -/

theorem Values.empty_nonemptySlices : Values.NonemptySlices Values.empty := by
  intro k vs h
  simp [Values.empty] at h

theorem Values.add_nonemptySlices (m : Values) (key value : GoString)
    (hm : m.NonemptySlices) : (m.add key value).NonemptySlices := by
  intro k vs h
  unfold Values.add at h
  by_cases hk : k = key
  · simp only [hk, if_true, Option.some.injEq] at h
    rw [← h]
    simp
  · simp only [hk, if_false] at h
    exact hm k vs h

theorem parseQueryStep_nonemptySlices (m : Values) (piece : GoString)
    (hm : m.NonemptySlices) : (parseQueryStep m piece).NonemptySlices := by
  unfold parseQueryStep
  split
  · exact hm
  · split
    · exact hm
    · split
      · exact hm
      · split
        · exact hm
        · exact Values.add_nonemptySlices m _ _ hm

theorem foldl_parseQueryStep_nonemptySlices (ps : List GoString) :
    ∀ m : Values, m.NonemptySlices → (ps.foldl parseQueryStep m).NonemptySlices := by
  induction ps with
  | nil => intro m hm; exact hm
  | cons p ps ih =>
    intro m hm
    exact ih _ (parseQueryStep_nonemptySlices m p hm)

/-- A key present in the parsed query has at least one value. -/
theorem Query_nonemptySlices (rawQuery : GoString) : (Query rawQuery).NonemptySlices :=
  foldl_parseQueryStep_nonemptySlices _ _ Values.empty_nonemptySlices

/-- The result of `writeJSON` on a fresh response writer. -/
theorem writeJSON_fresh [JSONMarshal ι] (status : Nat) (v : JSONArg ι) :
    writeJSON ResponseWriter.fresh status v =
      { header := [("Content-Type".toList, "application/json".toList)], wroteHeader := true,
        status := status, sentHeader := [], headerCalls := [status],
        body := if v.marshals then [v] else [] } := by
  cases h : v.marshals <;>
    simp [writeJSON, ResponseWriter.fresh, ResponseWriter.WriteHeader,
      ResponseWriter.HeaderAdd, ResponseWriter.Encode, h]

theorem writeJSON_fresh_isSingleResponse [JSONMarshal ι] (status : Nat) (v : JSONArg ι)
    (hv : v.marshals = true) :
    (writeJSON ResponseWriter.fresh status v).isSingleResponse status v := by
  rw [writeJSON_fresh, hv]
  exact ⟨rfl, rfl, rfl, rfl⟩

/-! ## The /invoice/all handler and the gRPC stub -/

/-- C8: for every request to /invoice/all and every service state, `handleGetAllInvoice`
writes exactly one response, with status 200 and the JSON encoding of nil (null) as body, and
makes no call to the service, whose state is left as it was. -/
theorem handleGetAllInvoice_single_null [JSONMarshal ι] (svc : Aggregator σ δ ι) (r : Request) (s : σ) :
    (handleGetAllInvoice svc r (Exchange.start s)).w.isSingleResponse 200 JSONArg.null ∧
      (handleGetAllInvoice svc r (Exchange.start s)).calls = [] ∧
      (handleGetAllInvoice svc r (Exchange.start s)).svc = s := by
  refine ⟨?_, rfl, rfl⟩
  exact writeJSON_fresh_isSingleResponse 200 JSONArg.null rfl

/-- C9: for every context and request, `UnimplementedAggregatorServer.Aggregator` returns a
nil response and a non-nil error whose status code is Unimplemented (12, distinct from OK) and
whose message is "method Aggregator not implemented". -/
theorem unimplemented_Aggregator_result {κ ρ : Type} (ctx : κ) (req : ρ) :
    (UnimplementedAggregatorServer.Aggregator ctx req).1 = none ∧
      (UnimplementedAggregatorServer.Aggregator ctx req).2 =
        some { code := codes.Unimplemented,
               message := "method Aggregator not implemented".toList } ∧
      codes.Unimplemented = 12 ∧ codes.Unimplemented ≠ codes.OK := by
  refine ⟨rfl, rfl, rfl, ?_⟩
  decide

/-! ## writeJSON and the Content-Type header -/

/-- C10 (the code at the failing input, for every status and value): on a fresh response
writer `writeJSON` sends the given status and the encoding of `v` (of every `v` that can be
encoded, nil among them), but the headers fixed by its `WriteHeader` are empty:
`Content-Type: application/json` is added to the header map only afterwards and is not among
the headers sent. -/
theorem writeJSON_content_type_not_sent [JSONMarshal ι] (status : Nat) (v : JSONArg ι) :
    (writeJSON ResponseWriter.fresh status v).sentHeader = [] ∧
      ("Content-Type".toList, "application/json".toList) ∉
        (writeJSON ResponseWriter.fresh status v).sentHeader ∧
      (writeJSON ResponseWriter.fresh status v).header =
        [("Content-Type".toList, "application/json".toList)] ∧
      (writeJSON ResponseWriter.fresh status v).status = status ∧
      (writeJSON ResponseWriter.fresh status v).body = (if v.marshals then [v] else []) ∧
      (writeJSON (ResponseWriter.fresh : ResponseWriter ι) 200 JSONArg.null).body =
        [JSONArg.null] := by
  rw [writeJSON_fresh, writeJSON_fresh]
  simp [JSONArg.marshals]

/-! ## Unsupported methods -/

/-- C1 (the code at the failing input): a GET request to /aggregate whose body decodes to the
report of 10 metres for unit 1 gets status 400, and yet `AggregateDistance` is called with the
report and the distance is accumulated in the store. -/
theorem handleAggregate_wrong_method_still_aggregates :
    (handleAggregate (invoiceAggregator 2)
        (fun _ => Except.ok { obuID := 1, distanceMeters := 10, timestamp := 0 })
        { Method := "GET".toList, RawQuery := [], Body := [] } (Exchange.start [])).calls =
      [Call.aggregateDistance { obuID := 1, distanceMeters := 10, timestamp := 0 }] ∧
    (handleAggregate (invoiceAggregator 2)
        (fun _ => Except.ok { obuID := 1, distanceMeters := 10, timestamp := 0 })
        { Method := "GET".toList, RawQuery := [], Body := [] } (Exchange.start [])).svc =
      [(1, 10)] ∧
    (handleAggregate (invoiceAggregator 2)
        (fun _ => Except.ok { obuID := 1, distanceMeters := 10, timestamp := 0 })
        { Method := "GET".toList, RawQuery := [], Body := [] } (Exchange.start [])).w.status =
      400 := by
  decide

/-- C4 (the code at the failing input): a POST request to /invoice?obu=1, the store holding 15
metres for unit 1, gets status 400 and the body "method not supported", and yet
`CalculateInvoice` is called with 1, a second `WriteHeader(200)` is attempted and the invoice is
written to the body as a second JSON value. -/
theorem handleGetInvoice_wrong_method_still_calculates :
    (handleGetInvoice (invoiceAggregator 2)
        { Method := "POST".toList, RawQuery := "obu=1".toList, Body := [] }
        (Exchange.start [(1, 15)])) =
      some
        { w :=
            { header := [("Content-Type".toList, "application/json".toList),
                         ("Content-Type".toList, "application/json".toList)],
              wroteHeader := true, status := 400, sentHeader := [], headerCalls := [400, 200],
              body := [JSONArg.errorMap "method not supported".toList,
                       JSONArg.invoice
                         (some { obuID := 1, totalDistance := 15, amountDue := 30 })] },
          svc := [(1, 15)],
          calls := [Call.calculateInvoice 1] } := by
  decide

/-! ## POST /aggregate -/

/-- C5: for every POST request to /aggregate, started on a fresh response writer:
if the body fails to decode, exactly one response is written, with status 400 and the error
map of the decode message, and `AggregateDistance` is not called;
if it decodes to `d`, `AggregateDistance` is called exactly once, with `d`; when it returns no
error the handler writes nothing, so the response is sent with status 200 and an empty body,
and when it returns an error exactly one response is written, with status 500 and the error map
of the message. -/
theorem handleAggregate_post_outcome [JSONMarshal ι] (svc : Aggregator σ δ ι)
    (decode : GoString → Except GoString δ) (r : Request) (s : σ)
    (hpost : r.Method = "POST".toList) :
    (∀ msg, decode r.Body = Except.error msg →
      (handleAggregate svc decode r (Exchange.start s)).w.isSingleResponse 400
          (JSONArg.errorMap msg) ∧
        (handleAggregate svc decode r (Exchange.start s)).calls = [] ∧
        (handleAggregate svc decode r (Exchange.start s)).svc = s) ∧
    (∀ d, decode r.Body = Except.ok d →
      (handleAggregate svc decode r (Exchange.start s)).calls = [Call.aggregateDistance d] ∧
        (handleAggregate svc decode r (Exchange.start s)).svc = (svc.AggregateDistance d s).2 ∧
        ((svc.AggregateDistance d s).1 = none →
          (handleAggregate svc decode r (Exchange.start s)).w = ResponseWriter.fresh ∧
          (handleAggregate svc decode r (Exchange.start s)).w.finishRequest.status = 200 ∧
          (handleAggregate svc decode r (Exchange.start s)).w.finishRequest.body = []) ∧
        (∀ e, (svc.AggregateDistance d s).1 = some e →
          (handleAggregate svc decode r (Exchange.start s)).w.isSingleResponse 500
            (JSONArg.errorMap e.message))) := by
  refine ⟨?_, ?_⟩
  · intro msg hdec
    simp only [handleAggregate, hpost, ne_eq, not_true_eq_false, if_false, hdec]
    exact ⟨writeJSON_fresh_isSingleResponse 400 _ rfl, rfl, rfl⟩
  · intro d hdec
    simp only [handleAggregate, hpost, ne_eq, not_true_eq_false, if_false, hdec]
    refine ⟨?_, ?_, ?_, ?_⟩
    · cases h : (svc.AggregateDistance d (Exchange.start s : Exchange σ δ ι).svc).1 <;> rfl
    · cases h : (svc.AggregateDistance d (Exchange.start s : Exchange σ δ ι).svc).1 <;> rfl
    · intro hnone
      have h : (svc.AggregateDistance d (Exchange.start s : Exchange σ δ ι).svc).1 = none :=
        hnone
      simp only [h]
      exact ⟨rfl, rfl, rfl⟩
    · intro e hsome
      have h : (svc.AggregateDistance d (Exchange.start s : Exchange σ δ ι).svc).1 = some e :=
        hsome
      simp only [h]
      exact writeJSON_fresh_isSingleResponse 500 _ rfl

/-- The theorem of C5 at a POST request whose body decodes to 10 metres for unit 1, the store
being empty: one call, the store then holds the 10 metres, and the response has status 200. -/
theorem handleAggregate_post_outcome_witness :
    "POST".toList = "POST".toList ∧
    (handleAggregate (invoiceAggregator 2)
        (fun _ => Except.ok { obuID := 1, distanceMeters := 10, timestamp := 0 })
        { Method := "POST".toList, RawQuery := [], Body := [] } (Exchange.start [])).calls =
      [Call.aggregateDistance { obuID := 1, distanceMeters := 10, timestamp := 0 }] ∧
    (handleAggregate (invoiceAggregator 2)
        (fun _ => Except.ok { obuID := 1, distanceMeters := 10, timestamp := 0 })
        { Method := "POST".toList, RawQuery := [], Body := [] } (Exchange.start [])).svc =
      [(1, 10)] ∧
    (handleAggregate (invoiceAggregator 2)
        (fun _ => Except.ok { obuID := 1, distanceMeters := 10, timestamp := 0 })
        { Method := "POST".toList, RawQuery := [], Body := [] }
        (Exchange.start [])).w.finishRequest.status = 200 :=
  have h := (handleAggregate_post_outcome (invoiceAggregator 2)
    (fun _ => Except.ok { obuID := 1, distanceMeters := 10, timestamp := 0 })
    { Method := "POST".toList, RawQuery := [], Body := [] } [] rfl).2
    { obuID := 1, distanceMeters := 10, timestamp := 0 } rfl
  ⟨rfl, h.1, h.2.1, (h.2.2.1 rfl).2.1⟩

/-- C2 (counterexample): a POST request whose body decodes to a report of -5 metres, which
`AggregateDistance` rejects with a validation error, gets status 500, not 400. -/
theorem handleAggregate_validation_error_gets_500 :
    ((invoiceAggregator 2).AggregateDistance
        { obuID := 1, distanceMeters := -5, timestamp := 0 } []).1 =
      some { kind := ErrorKind.validation, message := "negative distance".toList } ∧
    (handleAggregate (invoiceAggregator 2)
        (fun _ => Except.ok { obuID := 1, distanceMeters := -5, timestamp := 0 })
        { Method := "POST".toList, RawQuery := [], Body := [] } (Exchange.start [])).w.status =
      500 ∧
    ¬ (handleAggregate (invoiceAggregator 2)
        (fun _ => Except.ok { obuID := 1, distanceMeters := -5, timestamp := 0 })
        { Method := "POST".toList, RawQuery := [], Body := [] } (Exchange.start [])).w.status =
      400 := by
  decide

/-- C2 (amended): for every POST request to /aggregate whose body decodes to a report that
`AggregateDistance` rejects with an error of any kind, a validation error included, exactly one
response is written, with status 500 and the error map of the message; the status of a POST
response is 500 exactly when the body decodes and `AggregateDistance` returns an error, and it
is 400 exactly when the body fails to decode. -/
theorem handleAggregate_service_error_is_500 [JSONMarshal ι] (svc : Aggregator σ δ ι)
    (decode : GoString → Except GoString δ) (r : Request) (s : σ)
    (hpost : r.Method = "POST".toList) :
    (∀ d e, decode r.Body = Except.ok d → (svc.AggregateDistance d s).1 = some e →
      (handleAggregate svc decode r (Exchange.start s)).w.isSingleResponse 500
        (JSONArg.errorMap e.message)) ∧
    ((handleAggregate svc decode r (Exchange.start s)).w.finishRequest.status = 500 ↔
      ∃ d e, decode r.Body = Except.ok d ∧ (svc.AggregateDistance d s).1 = some e) ∧
    ((handleAggregate svc decode r (Exchange.start s)).w.finishRequest.status = 400 ↔
      ∃ msg, decode r.Body = Except.error msg) := by
  refine ⟨?_, ?_, ?_⟩
  · intro d e hdec hsome
    have h : (svc.AggregateDistance d (Exchange.start s : Exchange σ δ ι).svc).1 = some e :=
      hsome
    simp only [handleAggregate, hpost, ne_eq, not_true_eq_false, if_false, hdec, h]
    exact writeJSON_fresh_isSingleResponse 500 _ rfl
  · simp only [handleAggregate, hpost, ne_eq, not_true_eq_false, if_false]
    cases hdec : decode r.Body with
    | error msg =>
      simp [Exchange.writeJSON, Exchange.start, writeJSON_fresh, JSONArg.marshals,
        ResponseWriter.finishRequest]
    | ok d =>
      cases h : (svc.AggregateDistance d (Exchange.start s : Exchange σ δ ι).svc).1 with
      | none =>
        have h2 : (svc.AggregateDistance d s).1 = none := h
        simp [Exchange.start, ResponseWriter.fresh, ResponseWriter.finishRequest, h2]
      | some e =>
        have h2 : (svc.AggregateDistance d s).1 = some e := h
        simp [Exchange.writeJSON, Exchange.start, writeJSON_fresh, JSONArg.marshals,
          ResponseWriter.finishRequest, h2]
  · simp only [handleAggregate, hpost, ne_eq, not_true_eq_false, if_false]
    cases hdec : decode r.Body with
    | error msg =>
      simp [Exchange.writeJSON, Exchange.start, writeJSON_fresh, JSONArg.marshals,
        ResponseWriter.finishRequest]
    | ok d =>
      cases h : (svc.AggregateDistance d (Exchange.start s : Exchange σ δ ι).svc).1 with
      | none =>
        have h2 : (svc.AggregateDistance d s).1 = none := h
        simp [Exchange.start, ResponseWriter.fresh, ResponseWriter.finishRequest, h2]
      | some e =>
        have h2 : (svc.AggregateDistance d s).1 = some e := h
        simp [Exchange.writeJSON, Exchange.start, writeJSON_fresh, JSONArg.marshals,
          ResponseWriter.finishRequest, h2]

/-- The theorem of C2 (amended) at the POST request of the counterexample: the validation
error of the service is answered by the one response 500 carrying its message. -/
theorem handleAggregate_service_error_is_500_witness :
    "POST".toList = "POST".toList ∧
    (handleAggregate (invoiceAggregator 2)
        (fun _ => Except.ok { obuID := 1, distanceMeters := -5, timestamp := 0 })
        { Method := "POST".toList, RawQuery := [], Body := [] }
        (Exchange.start [])).w.isSingleResponse 500
      (JSONArg.errorMap "negative distance".toList) :=
  ⟨rfl, (handleAggregate_service_error_is_500 (invoiceAggregator 2)
    (fun _ => Except.ok { obuID := 1, distanceMeters := -5, timestamp := 0 })
    { Method := "POST".toList, RawQuery := [], Body := [] } [] rfl).1
    { obuID := 1, distanceMeters := -5, timestamp := 0 }
    { kind := ErrorKind.validation, message := "negative distance".toList } rfl rfl⟩

/-! ## GET /invoice -/

/-- Once the status line is sent, `writeJSON` leaves the status as it is. -/
theorem writeJSON_status_of_wroteHeader [JSONMarshal ι] (w : ResponseWriter ι) (status : Nat)
    (v : JSONArg ι) (h : w.wroteHeader = true) : (writeJSON w status v).status = w.status := by
  cases hv : v.marshals <;>
    simp [writeJSON, ResponseWriter.WriteHeader, ResponseWriter.HeaderAdd,
      ResponseWriter.Encode, h, hv]

/-- On a response writer that has sent nothing, `writeJSON` sends the given status. -/
theorem writeJSON_status_of_not_wroteHeader [JSONMarshal ι] (w : ResponseWriter ι)
    (status : Nat) (v : JSONArg ι) (h : w.wroteHeader = false) :
    (writeJSON w status v).status = status := by
  cases hv : v.marshals <;>
    simp [writeJSON, ResponseWriter.WriteHeader, ResponseWriter.HeaderAdd,
      ResponseWriter.Encode, h, hv]

/-- C6 (counterexample): GET /invoice?obu=1 on a service that returns, with no error, an
invoice whose amounts are not finite.  `CalculateInvoice` is called once with 1 and status 200
is sent, but the encoder rejects the invoice and its error is dropped: the body is empty, it is
not the encoding of the invoice returned. -/
theorem handleGetInvoice_unencodable_invoice_empty_body :
    Query "obu=1".toList "obu".toList = some ["1".toList] ∧
    Atoi "1".toList = some 1 ∧
    (overflowedAggregator.CalculateInvoice 1 ()).1 =
      ({ obuID := 1, totalDistance := Amount.notFinite, amountDue := Amount.notFinite },
        none) ∧
    handleGetInvoice overflowedAggregator
        { Method := "GET".toList, RawQuery := "obu=1".toList, Body := [] }
        (Exchange.start ()) =
      some
        { w :=
            { header := [("Content-Type".toList, "application/json".toList)],
              wroteHeader := true, status := 200, sentHeader := [], headerCalls := [200],
              body := [] },
          svc := (),
          calls := [Call.calculateInvoice 1] } := by
  decide

/-- C6 (amended): for every GET request to /invoice whose first obu query value parses (by
Atoi) as the integer `n`, the handler returns normally and calls `CalculateInvoice` exactly
once, with `n`.  When the service returns an error, exactly one response is written, with
status 500 and the error map of the message.  When it returns none, `WriteHeader(200)` is
called once and status 200 is sent; the body is the returned invoice, unmodified, when the
invoice can be encoded, and is empty when it cannot. -/
theorem handleGetInvoice_get_parsed [JSONMarshal ι] (svc : Aggregator σ δ ι) (r : Request)
    (s : σ) (v0 : GoString) (rest : List GoString) (n : Int)
    (hget : r.Method = "GET".toList)
    (hq : Query r.RawQuery "obu".toList = some (v0 :: rest))
    (hn : Atoi v0 = some n) :
    ∃ x, handleGetInvoice svc r (Exchange.start s) = some x ∧
      x.calls = [Call.calculateInvoice n] ∧
      x.svc = (svc.CalculateInvoice n s).2 ∧
      (∀ e, (svc.CalculateInvoice n s).1.2 = some e →
        x.w.isSingleResponse 500 (JSONArg.errorMap e.message)) ∧
      ((svc.CalculateInvoice n s).1.2 = none →
        x.w.wroteHeader = true ∧ x.w.status = 200 ∧ x.w.headerCalls = [200] ∧
        x.w.body =
          (if JSONMarshal.marshals (svc.CalculateInvoice n s).1.1 then
            [JSONArg.invoice (svc.CalculateInvoice n s).1.1]
          else [])) := by
  simp only [handleGetInvoice, hget, ne_eq, not_true_eq_false, if_false, hq, hn]
  cases h : (svc.CalculateInvoice n (Exchange.start s : Exchange σ δ ι).svc).1.2 with
  | none =>
    have h2 : (svc.CalculateInvoice n s).1.2 = none := h
    refine ⟨_, rfl, rfl, rfl, ?_, ?_⟩
    · intro e he
      rw [h2] at he
      cases he
    · intro _
      have hw : ∀ v : JSONArg ι,
          (writeJSON ResponseWriter.fresh 200 v).wroteHeader = true ∧
          (writeJSON ResponseWriter.fresh 200 v).status = 200 ∧
          (writeJSON ResponseWriter.fresh 200 v).headerCalls = [200] ∧
          (writeJSON ResponseWriter.fresh 200 v).body = (if v.marshals then [v] else []) := by
        intro v
        rw [writeJSON_fresh]
        exact ⟨rfl, rfl, rfl, rfl⟩
      exact hw _
  | some err =>
    have h2 : (svc.CalculateInvoice n s).1.2 = some err := h
    refine ⟨_, rfl, rfl, rfl, ?_, ?_⟩
    · intro e he
      rw [h2] at he
      cases he
      exact writeJSON_fresh_isSingleResponse 500 _ rfl
    · intro he
      rw [h2] at he
      cases he

/-- The theorem of C6 (amended) at GET /invoice?obu=1, the store holding 15 metres for unit 1:
one call, status 200, and the body is the invoice of 15 metres at rate 2. -/
theorem handleGetInvoice_get_parsed_witness :
    "GET".toList = "GET".toList ∧
    Query "obu=1".toList "obu".toList = some ["1".toList] ∧
    Atoi "1".toList = some 1 ∧
    ∃ x, handleGetInvoice (invoiceAggregator 2)
        { Method := "GET".toList, RawQuery := "obu=1".toList, Body := [] }
        (Exchange.start [(1, 15)]) = some x ∧
      x.calls = [Call.calculateInvoice 1] ∧
      x.w.status = 200 ∧
      x.w.headerCalls = [200] ∧
      x.w.body =
        [JSONArg.invoice (some { obuID := 1, totalDistance := 15, amountDue := 30 })] :=
  have h := handleGetInvoice_get_parsed (invoiceAggregator 2)
    { Method := "GET".toList, RawQuery := "obu=1".toList, Body := [] } [(1, 15)]
    "1".toList [] 1 rfl (by decide) (by decide)
  ⟨rfl, by decide, by decide,
    h.elim (fun x hx =>
      ⟨x, hx.1, hx.2.1, (hx.2.2.2.2 rfl).2.1, (hx.2.2.2.2 rfl).2.2.1,
        (hx.2.2.2.2 rfl).2.2.2⟩)⟩

/-- C7: for every GET request to /invoice: when the obu parameter is absent, exactly one
response is written, with status 400 and the error map "missing OBU ID"; when its first value
does not parse (by Atoi), exactly one response is written, with status 400 and the error map
"invalid OBU ID"; in both cases `CalculateInvoice` is not called.  A present parameter has at
least one value, so that indexing the first value does not fail and the handler returns
normally. -/
theorem handleGetInvoice_missing_or_invalid [JSONMarshal ι] (svc : Aggregator σ δ ι)
    (r : Request) (s : σ)
    (hget : r.Method = "GET".toList) :
    (Query r.RawQuery "obu".toList = none →
      ∃ x, handleGetInvoice svc r (Exchange.start s) = some x ∧
        x.w.isSingleResponse 400 (JSONArg.errorMap "missing OBU ID".toList) ∧
        x.calls = [] ∧ x.svc = s) ∧
    (∀ v0 rest, Query r.RawQuery "obu".toList = some (v0 :: rest) → Atoi v0 = none →
      ∃ x, handleGetInvoice svc r (Exchange.start s) = some x ∧
        x.w.isSingleResponse 400 (JSONArg.errorMap "invalid OBU ID".toList) ∧
        x.calls = [] ∧ x.svc = s) ∧
    (∀ vs, Query r.RawQuery "obu".toList = some vs → ∃ v0 rest, vs = v0 :: rest) ∧
    (handleGetInvoice svc r (Exchange.start s)).isSome = true := by
  have hne : ∀ vs, Query r.RawQuery "obu".toList = some vs → ∃ v0 rest, vs = v0 :: rest := by
    intro vs hvs
    have h := Query_nonemptySlices r.RawQuery _ vs hvs
    cases vs with
    | nil => exact absurd rfl h
    | cons v0 rest => exact ⟨v0, rest, rfl⟩
  refine ⟨?_, ?_, hne, ?_⟩
  · intro hq
    simp only [handleGetInvoice, hget, ne_eq, not_true_eq_false, if_false, hq]
    exact ⟨_, rfl, writeJSON_fresh_isSingleResponse 400 _ rfl, rfl, rfl⟩
  · intro v0 rest hq hn
    simp only [handleGetInvoice, hget, ne_eq, not_true_eq_false, if_false, hq, hn]
    exact ⟨_, rfl, writeJSON_fresh_isSingleResponse 400 _ rfl, rfl, rfl⟩
  · cases hq : Query r.RawQuery "obu".toList with
    | none =>
      simp only [handleGetInvoice, hq]
      rfl
    | some vs =>
      obtain ⟨v0, rest, rfl⟩ := hne vs hq
      cases hn : Atoi v0 with
      | none =>
        simp only [handleGetInvoice, hq, hn]
        rfl
      | some n =>
        simp only [handleGetInvoice, hq, hn]
        split <;> rfl

/-- The theorem of C7 at GET /invoice?obu=abc: the one response 400 "invalid OBU ID", and no
call; the empty value of GET /invoice?obu= does not parse either. -/
theorem handleGetInvoice_missing_or_invalid_witness :
    "GET".toList = "GET".toList ∧
    (Query "obu=abc".toList "obu".toList = some ["abc".toList] ∧ Atoi "abc".toList = none) ∧
    (Query "obu=".toList "obu".toList = some [[]] ∧ Atoi [] = none) ∧
    (∃ x, handleGetInvoice (invoiceAggregator 2)
        { Method := "GET".toList, RawQuery := "obu=abc".toList, Body := [] }
        (Exchange.start [(1, 15)]) = some x ∧
      x.w.isSingleResponse 400 (JSONArg.errorMap "invalid OBU ID".toList) ∧
      x.calls = [] ∧ x.svc = [(1, 15)]) :=
  ⟨rfl, ⟨by decide, by decide⟩, ⟨by decide, by decide⟩,
    (handleGetInvoice_missing_or_invalid (invoiceAggregator 2)
      { Method := "GET".toList, RawQuery := "obu=abc".toList, Body := [] } [(1, 15)] rfl).2.1
      "abc".toList [] (by decide) (by decide)⟩

/-! ## The OBU identifier passed to CalculateInvoice -/

/-- A `writeJSON` with status 400 on a writer that has either sent nothing or sent status 400
leaves the status sent at 400. -/
theorem writeJSON_400_status [JSONMarshal ι] (w : ResponseWriter ι) (v : JSONArg ι)
    (h : w.wroteHeader = true → w.status = 400) : (writeJSON w 400 v).status = 400 := by
  cases hw : w.wroteHeader with
  | false => exact writeJSON_status_of_not_wroteHeader w 400 v hw
  | true =>
    rw [writeJSON_status_of_wroteHeader w 400 v hw]
    exact h hw

/-- The state of a handler after its method check: no call made, the service as it was, and
the status sent, if any, is 400. -/
theorem methodCheck_state [JSONMarshal ι] (r : Request) (s : σ) (method : GoString)
    (msg : GoString) :
    (if r.Method ≠ method then
        (Exchange.start s : Exchange σ δ ι).writeJSON 400 (JSONArg.errorMap msg)
      else Exchange.start s).calls = [] ∧
    (if r.Method ≠ method then
        (Exchange.start s : Exchange σ δ ι).writeJSON 400 (JSONArg.errorMap msg)
      else Exchange.start s).svc = s ∧
    ((if r.Method ≠ method then
        (Exchange.start s : Exchange σ δ ι).writeJSON 400 (JSONArg.errorMap msg)
      else Exchange.start s).w.wroteHeader = true →
     (if r.Method ≠ method then
        (Exchange.start s : Exchange σ δ ι).writeJSON 400 (JSONArg.errorMap msg)
      else Exchange.start s).w.status = 400) := by
  by_cases hm : r.Method = method
  · simp only [hm, ne_eq, not_true_eq_false, if_false]
    refine ⟨rfl, rfl, ?_⟩
    intro h
    cases h
  · simp only [hm, ne_eq, not_false_eq_true, if_true]
    refine ⟨rfl, rfl, fun _ => ?_⟩
    exact writeJSON_status_of_not_wroteHeader _ 400 _ rfl

/-- C3 (counterexample): GET /invoice?obu=-1 on an empty store.  The value "-1" parses, as the
negative integer -1, and `CalculateInvoice` is called with -1; the response has status 500 (the
unit is not found), not 400. -/
theorem handleGetInvoice_negative_obu_is_passed :
    Query "obu=-1".toList "obu".toList = some ["-1".toList] ∧
    Atoi "-1".toList = some (-1) ∧
    (handleGetInvoice (invoiceAggregator 2)
        { Method := "GET".toList, RawQuery := "obu=-1".toList, Body := [] }
        (Exchange.start [])).map (fun x => x.calls) =
      some [Call.calculateInvoice (-1)] ∧
    (handleGetInvoice (invoiceAggregator 2)
        { Method := "GET".toList, RawQuery := "obu=-1".toList, Body := [] }
        (Exchange.start [])).map (fun x => x.w.status) = some 500 := by
  decide

/-- C3 (amended): for every request, `handleGetInvoice` calls `CalculateInvoice` only with the
integer that Atoi parses from the first obu query value; whenever that value parses, as `n`,
`CalculateInvoice` is called exactly once, with `n`, and `n` may be negative: the value "-1"
parses as -1 and `CalculateInvoice` is called with -1.  When the obu parameter is absent or its
first value does not parse by Atoi, the response has status 400 and `CalculateInvoice` is not
called. -/
theorem handleGetInvoice_calls_only_atoi_parsed [JSONMarshal ι] (svc : Aggregator σ δ ι)
    (r : Request) (s : σ) :
    (∀ x, handleGetInvoice svc r (Exchange.start s) = some x →
      ∀ c ∈ x.calls, ∃ v0 rest n, Query r.RawQuery "obu".toList = some (v0 :: rest) ∧
        Atoi v0 = some n ∧ c = Call.calculateInvoice n) ∧
    (∀ v0 rest n, Query r.RawQuery "obu".toList = some (v0 :: rest) → Atoi v0 = some n →
      ∃ x, handleGetInvoice svc r (Exchange.start s) = some x ∧
        x.calls = [Call.calculateInvoice n] ∧ x.svc = (svc.CalculateInvoice n s).2) ∧
    (∀ rest, Query r.RawQuery "obu".toList = some ("-1".toList :: rest) →
      ∃ x, handleGetInvoice svc r (Exchange.start s) = some x ∧
        x.calls = [Call.calculateInvoice (-1)] ∧ x.svc = (svc.CalculateInvoice (-1) s).2) ∧
    ((Query r.RawQuery "obu".toList = none ∨
        ∃ v0 rest, Query r.RawQuery "obu".toList = some (v0 :: rest) ∧ Atoi v0 = none) →
      ∃ x, handleGetInvoice svc r (Exchange.start s) = some x ∧
        x.w.status = 400 ∧ x.calls = [] ∧ x.svc = s) ∧
    Atoi "-1".toList = some (-1) := by
  have hx1 := @methodCheck_state σ δ ι _ r s "GET".toList "method not supported".toList
  simp only [handleGetInvoice]
  generalize (if r.Method ≠ "GET".toList then
      (Exchange.start s : Exchange σ δ ι).writeJSON 400
        (JSONArg.errorMap "method not supported".toList)
    else Exchange.start s) = x1 at hx1 ⊢
  obtain ⟨hcalls, hsvc, hstatus⟩ := hx1
  have hpass : ∀ v0 rest n, Query r.RawQuery "obu".toList = some (v0 :: rest) →
      Atoi v0 = some n →
      ∃ x, (match Query r.RawQuery "obu".toList with
          | none => some (x1.writeJSON 400 (JSONArg.errorMap "missing OBU ID".toList))
          | some values =>
            match values with
            | [] => none
            | v0 :: _ =>
              match Atoi v0 with
              | none => some (x1.writeJSON 400 (JSONArg.errorMap "invalid OBU ID".toList))
              | some obuID =>
                match (svc.CalculateInvoice obuID x1.svc).1.2 with
                | some err =>
                  some (Exchange.writeJSON
                    { x1 with svc := (svc.CalculateInvoice obuID x1.svc).2,
                              calls := x1.calls ++ [Call.calculateInvoice obuID] }
                    500 (JSONArg.errorMap err.message))
                | none =>
                  some (Exchange.writeJSON
                    { x1 with svc := (svc.CalculateInvoice obuID x1.svc).2,
                              calls := x1.calls ++ [Call.calculateInvoice obuID] }
                    200 (JSONArg.invoice (svc.CalculateInvoice obuID x1.svc).1.1))) = some x ∧
        x.calls = [Call.calculateInvoice n] ∧ x.svc = (svc.CalculateInvoice n s).2 := by
    intro v0 rest n hq hn
    simp only [hq, hn]
    split
    · refine ⟨_, rfl, ?_, ?_⟩
      · simp only [Exchange.writeJSON, hcalls, List.nil_append]
      · simp only [Exchange.writeJSON, hsvc]
    · refine ⟨_, rfl, ?_, ?_⟩
      · simp only [Exchange.writeJSON, hcalls, List.nil_append]
      · simp only [Exchange.writeJSON, hsvc]
  refine ⟨?_, hpass, ?_, ?_, by decide⟩
  · intro x hx c hc
    cases hq : Query r.RawQuery "obu".toList with
    | none =>
      simp only [hq, Option.some.injEq] at hx
      rw [← hx] at hc
      simp only [Exchange.writeJSON, hcalls, List.not_mem_nil] at hc
    | some vs =>
      cases vs with
      | nil =>
        simp only [hq] at hx
        cases hx
      | cons v0 rest =>
        cases hn : Atoi v0 with
        | none =>
          simp only [hq, hn, Option.some.injEq] at hx
          rw [← hx] at hc
          simp only [Exchange.writeJSON, hcalls, List.not_mem_nil] at hc
        | some n =>
          refine ⟨v0, rest, n, rfl, hn, ?_⟩
          simp only [hq, hn] at hx
          split at hx
          · simp only [Option.some.injEq] at hx
            rw [← hx] at hc
            simp only [Exchange.writeJSON, hcalls, List.nil_append, List.mem_singleton] at hc
            exact hc
          · simp only [Option.some.injEq] at hx
            rw [← hx] at hc
            simp only [Exchange.writeJSON, hcalls, List.nil_append, List.mem_singleton] at hc
            exact hc
  · intro rest hq
    exact hpass "-1".toList rest (-1) hq (by decide)
  · intro h
    rcases h with hq | ⟨v0, rest, hq, hn⟩
    · simp only [hq]
      exact ⟨_, rfl, writeJSON_400_status _ _ hstatus, hcalls, hsvc⟩
    · simp only [hq, hn]
      exact ⟨_, rfl, writeJSON_400_status _ _ hstatus, hcalls, hsvc⟩

end TollCalc
